import Mathlib

/-!
Verification of the friend-relationship subsystem of the `noor` web
application (`src/api/friends.py` and the `FriendRequest` / `Friendship`
models of `src/database/db.py`).

The database is embedded as explicit lists of rows; each HTTP handler of
`friends.py` becomes a pure function from a `DB` state (plus the
authenticated actor id and the request parameters) to a response paired
with the successor state.  Uniqueness and check constraints of the two
tables are enforced by the insert operations, which return `DbError`
values standing for the `IntegrityError` / `ValueError` exceptions of the
original code.  The boolean `notifFails` argument models whether the
best-effort notification write raises an exception at that point of the
handler; where the Python code wraps the write in `try/except` the
exception is swallowed, otherwise it propagates to the handler's generic
`except Exception` block which rolls the transaction back.
-/

namespace Noor

/-- A row of the `friend_requests` table (`FriendRequest` model). -/
structure FriendRequestRow where
  id : Nat
  from_user_id : Nat
  to_user_id : Nat
  status : String
deriving DecidableEq

/-- A row of the `friendships` table (`Friendship` model). -/
structure FriendshipRow where
  id : Nat
  user1_id : Nat
  user2_id : Nat
deriving DecidableEq

/-- A row of the `notifications` table, restricted to the fields the
friend subsystem writes. -/
structure NotificationRow where
  user_id : Nat
  from_user_id : Nat
  type : String
  request_id : Option Nat
deriving DecidableEq

/-- The database state visible to the friend subsystem.  `forms` is the
set of user ids that own an `active=True` `Form` row (only its membership
matters: it gates notification emission).  `nextReqId` / `nextFrId` model
the primary-key autoincrement counters. -/
structure DB where
  requests : List FriendRequestRow
  friendships : List FriendshipRow
  notifications : List NotificationRow
  forms : List Nat
  nextReqId : Nat
  nextFrId : Nat
deriving DecidableEq

/-- Storage-level failures: `conflict` is a uniqueness-constraint
violation (`IntegrityError`), `checkViolation` a check-constraint
violation, `valueError` the `ValueError` raised by
`Friendship.create_friendship` on a self pair. -/
inductive DbError where
  | conflict
  | checkViolation
  | valueError
deriving DecidableEq

/-- `Friendship.are_friends` (db.py lines 287-306): false on a self pair,
otherwise an existence check on the canonical `(min, max)` row. -/
def are_friends (db : DB) (a b : Nat) : Bool :=
  if a == b then false
  else db.friendships.any (fun f => f.user1_id == min a b && f.user2_id == max a b)

/-- `Friendship.get_friendship` (db.py lines 277-285): canonical lookup. -/
def get_friendship (db : DB) (a b : Nat) : Option FriendshipRow :=
  db.friendships.find? (fun f => f.user1_id == min a b && f.user2_id == max a b)

/-- The pending-request-in-either-direction query of
`send_friend_request` (friends.py lines 40-46); `.first()` returns the
first matching row in storage order. -/
def find_pending_between (db : DB) (a b : Nat) : Option FriendRequestRow :=
  db.requests.find? (fun r =>
    ((r.from_user_id == a && r.to_user_id == b) ||
     (r.from_user_id == b && r.to_user_id == a)) && r.status == "pending")

/-- Insert into `friend_requests`, enforcing the table's constraints
(db.py lines 218-231): `unique_friend_request` on the directed pair
`(from_user_id, to_user_id)` and `check_not_self_request`. -/
def insertRequest (db : DB) (fromId toId : Nat) (status : String) :
    Except DbError DB :=
  if fromId == toId then .error .checkViolation
  else if db.requests.any (fun r => r.from_user_id == fromId && r.to_user_id == toId) then
    .error .conflict
  else .ok { db with
    requests := db.requests ++ [⟨db.nextReqId, fromId, toId, status⟩],
    nextReqId := db.nextReqId + 1 }

/-- `Friendship.create_friendship` (db.py lines 264-275): raises
`ValueError` on a self pair, otherwise yields the canonically ordered
pair `(min, max)`. -/
def create_friendship (a b : Nat) : Except DbError (Nat × Nat) :=
  if a == b then .error .valueError else .ok (min a b, max a b)

/-- `create_friendship` followed by the insert into `friendships`,
enforcing `check_user_order` (`user1_id < user2_id`) and
`unique_friendship` on `(user1_id, user2_id)` (db.py lines 251-259). -/
def insertFriendship (db : DB) (a b : Nat) : Except DbError DB :=
  match create_friendship a b with
  | .error e => .error e
  | .ok (lo, hi) =>
    if db.friendships.any (fun f => f.user1_id == lo && f.user2_id == hi) then
      .error .conflict
    else if lo < hi then
      .ok { db with
        friendships := db.friendships ++ [⟨db.nextFrId, lo, hi⟩],
        nextFrId := db.nextFrId + 1 }
    else .error .checkViolation

/-- Append a notification row (the `Notification(...)` +
`db.session.add` pattern). -/
def addNotif (db : DB) (toU fromU : Nat) (ty : String) (reqId : Option Nat) : DB :=
  { db with notifications := db.notifications ++ [⟨toU, fromU, ty, reqId⟩] }

/-- The `friend_request.status = s` ORM update, keyed by primary key. -/
def setReqStatus (db : DB) (rid : Nat) (s : String) : DB :=
  { db with requests := (db.requests.map
      (fun r => if r.id == rid then { r with status := s } else r)) }

/-- Responses of `send_friend_request`, mirroring the JSON bodies and
HTTP codes of friends.py lines 15-119. -/
inductive SendResp where
  | missingUser
  | selfRequest
  | alreadyFriends
  | incomingExists (request_id : Nat)
  | alreadySent
  | ok
  | internalError
deriving DecidableEq

/-- Responses of `accept_friend_request` (friends.py lines 125-202).
`alreadyFriends` is the success body `message = 'Already friends'`,
`accepted` the success body `message = 'Friend request accepted'`. -/
inductive AcceptResp where
  | notFound
  | alreadyFriends
  | accepted
  | internalError
deriving DecidableEq

inductive DeclineResp where
  | notFound
  | ok
  | internalError
deriving DecidableEq

inductive RemoveResp where
  | notFound
  | ok
deriving DecidableEq

/-- Responses of `get_friend_status`; `noneStatus` is the
`status: null` body. -/
inductive StatusResp where
  | friends
  | pendingSent (request_id : Nat)
  | pendingReceived (request_id : Nat)
  | noneStatus
deriving DecidableEq

/-- The deletion of old declined/rejected requests authored by the
sender toward the recipient (friends.py lines 67-78). -/
def purgeDeclined (db : DB) (userId toUserId : Nat) : DB :=
  { db with requests := db.requests.filter (fun r =>
      !(r.from_user_id == userId && r.to_user_id == toUserId &&
        (r.status == "declined" || r.status == "rejected"))) }

/-- `POST /api/friends/request` (friends.py lines 15-119).  `userId` is
the authenticated actor; `toUserId` the JSON `to_user_id` field, whose
Python falsiness check makes the value `0` behave like an absent field. -/
def send_friend_request (db : DB) (userId toUserId : Nat) (notifFails : Bool) :
    SendResp × DB :=
  if toUserId == 0 then (.missingUser, db)
  else if toUserId == userId then (.selfRequest, db)
  else if are_friends db userId toUserId then (.alreadyFriends, db)
  else match find_pending_between db userId toUserId with
    | some existing =>
      if existing.from_user_id == toUserId then (.incomingExists existing.id, db)
      else (.alreadySent, db)
    | none =>
      let db1 : DB := purgeDeclined db userId toUserId
      match insertRequest db1 userId toUserId "pending" with
      | .error _ => (.internalError, db)
      | .ok db2 =>
        let db3 : DB :=
          if db.forms.contains userId && !notifFails then
            addNotif db2 toUserId userId "friend_request" (some db.nextReqId)
          else db2
        (.ok, db3)

/-- The lookup predicate of `accept_friend_request` (friends.py lines
134-139). -/
def acceptPred (requestId userId : Nat) (r : FriendRequestRow) : Bool :=
  r.id == requestId && r.to_user_id == userId &&
    (r.status == "pending" || r.status == "accepted")

/-- `POST /api/friends/accept/<request_id>` (friends.py lines 125-202). -/
def accept_friend_request (db : DB) (userId requestId : Nat) (notifFails : Bool) :
    AcceptResp × DB :=
  match db.requests.find? (acceptPred requestId userId) with
  | none => (.notFound, db)
  | some fr =>
    if are_friends db userId fr.from_user_id then
      (.alreadyFriends,
        if fr.status == "pending" then setReqStatus db fr.id "accepted" else db)
    else match db.friendships.find? (fun f =>
        (f.user1_id == min userId fr.from_user_id &&
         f.user2_id == max userId fr.from_user_id) ||
        (f.user1_id == max userId fr.from_user_id &&
         f.user2_id == min userId fr.from_user_id)) with
    | some _ =>
      (.alreadyFriends,
        if fr.status == "pending" then setReqStatus db fr.id "accepted" else db)
    | none =>
      match insertFriendship db userId fr.from_user_id with
      | .error _ => (.internalError, db)
      | .ok db2 =>
        let db3 : DB :=
          if fr.status == "pending" then setReqStatus db2 fr.id "accepted" else db2
        let db4 : DB :=
          if db.forms.contains userId && !notifFails then
            addNotif db3 fr.from_user_id userId "friend_accepted" none
          else db3
        (.accepted, db4)

/-- `POST /api/friends/decline/<request_id>` (friends.py lines 207-245).
Unlike send and accept, the notification write here is not wrapped in an
inner `try/except`: when the recipient has an active form and the write
raises, the outer handler rolls back the whole transaction, so the
`declined` status update is lost and the original state is returned. -/
def decline_friend_request (db : DB) (userId requestId : Nat) (notifFails : Bool) :
    DeclineResp × DB :=
  match db.requests.find? (fun r =>
      r.id == requestId && r.to_user_id == userId && r.status == "pending") with
  | none => (.notFound, db)
  | some fr =>
    let db1 : DB := setReqStatus db fr.id "declined"
    if db.forms.contains userId then
      if notifFails then (.internalError, db)
      else (.ok, addNotif db1 fr.from_user_id userId "friend_declined" none)
    else (.ok, db1)

/-- The filter of accepted requests between the pair used by
`remove_friend` (friends.py lines 266-272). -/
def acceptedBetween (a b : Nat) (r : FriendRequestRow) : Bool :=
  ((r.from_user_id == a && r.to_user_id == b) ||
   (r.from_user_id == b && r.to_user_id == a)) && r.status == "accepted"

/-- `DELETE /api/friends/<friend_user_id>` (friends.py lines 251-283). -/
def remove_friend (db : DB) (userId friendUserId : Nat) : RemoveResp × DB :=
  match get_friendship db userId friendUserId with
  | none => (.notFound, db)
  | some f =>
    (.ok, { db with
      friendships := db.friendships.filter (fun g => !(g.id == f.id)),
      requests := db.requests.filter (fun r => !(acceptedBetween userId friendUserId r)) })

/-- `GET /api/friends/status/<other_user_id>` (friends.py lines 349-384). -/
def get_friend_status (db : DB) (userId otherId : Nat) : StatusResp :=
  if are_friends db userId otherId then .friends
  else match db.requests.find? (fun r =>
      r.from_user_id == userId && r.to_user_id == otherId && r.status == "pending") with
  | some r => .pendingSent r.id
  | none =>
    match db.requests.find? (fun r =>
        r.from_user_id == otherId && r.to_user_id == userId && r.status == "pending") with
    | some r => .pendingReceived r.id
    | none => .noneStatus

/-- Per-candidate verdicts of the batch status check. -/
inductive BStatus where
  | friends
  | pendingSent (request_id : Nat)
  | pendingReceived (request_id : Nat)
  | noneB
deriving DecidableEq

/-- The `statuses` Python dict, modelled as an association list where a
write prepends (so a lookup sees the most recent write, like a dict). -/
def dput (m : List (Nat × BStatus)) (k : Nat) (v : BStatus) : List (Nat × BStatus) :=
  (k, v) :: m

/-- `k in statuses`. -/
def dmem (m : List (Nat × BStatus)) (k : Nat) : Bool :=
  m.any (fun p => p.1 == k)

/-- `statuses[k]` as read by the response consumer. -/
def dget (m : List (Nat × BStatus)) (k : Nat) : Option BStatus :=
  (m.find? (fun p => p.1 == k)).map (fun p => p.2)

inductive BatchResp where
  | invalid
  | ok (statuses : List (Nat × BStatus))
deriving DecidableEq

/-- The `friend_id` projection of the batch friendship loop
(friends.py line 415). -/
def friendIdOf (userId : Nat) (f : FriendshipRow) : Nat :=
  if f.user1_id == userId then f.user2_id else f.user1_id

/-- `POST /api/friends/status/batch` (friends.py lines 390-447).
`userIds?` is the JSON `user_ids` field; `none` models an absent key,
which `data.get('user_ids', [])` turns into the empty list.  The single
Python loop over matched friendships both collects `friend_ids` and
writes `statuses[friend_id] = 'friends'`; the two accumulations are
split into a `map` and a `foldl` over the same matched list. -/
def batch_friend_status (db : DB) (userId : Nat) (userIds? : Option (List Nat)) :
    BatchResp :=
  let user_ids := userIds?.getD []
  if user_ids.isEmpty || decide (user_ids.length > 100) then .invalid
  else
    let matchedF := db.friendships.filter (fun f =>
      (f.user1_id == userId && user_ids.contains f.user2_id) ||
      (f.user2_id == userId && user_ids.contains f.user1_id))
    let friend_ids := matchedF.map (friendIdOf userId)
    let m1 := matchedF.foldl (fun m f => dput m (friendIdOf userId f) .friends) []
    let sent := db.requests.filter (fun r =>
      r.from_user_id == userId && user_ids.contains r.to_user_id &&
        r.status == "pending")
    let m2 := sent.foldl (fun m r =>
      if friend_ids.contains r.to_user_id then m
      else dput m r.to_user_id (.pendingSent r.id)) m1
    let received := db.requests.filter (fun r =>
      user_ids.contains r.from_user_id && r.to_user_id == userId &&
        r.status == "pending")
    let m3 := received.foldl (fun m r =>
      if friend_ids.contains r.from_user_id then m
      else dput m r.from_user_id (.pendingReceived r.id)) m2
    let m4 := user_ids.foldl (fun m uid =>
      if dmem m uid then m else dput m uid .noneB) m3
    .ok m4

/-! ### Derived notions used by the statements -/

/-- All friendship rows covering the unordered pair `{a, b}` (in either
column order). -/
def pairRows (db : DB) (a b : Nat) : List FriendshipRow :=
  db.friendships.filter (fun f =>
    (f.user1_id == a && f.user2_id == b) || (f.user1_id == b && f.user2_id == a))

/-- The directed-request rows between the pair, in either direction. -/
def betweenPair (a b : Nat) (r : FriendRequestRow) : Bool :=
  (r.from_user_id == a && r.to_user_id == b) ||
    (r.from_user_id == b && r.to_user_id == a)

/-- The canonical-ordering check constraint of the `friendships` table,
as a property of a whole state. -/
def FriendshipOrdered (db : DB) : Prop :=
  ∀ f ∈ db.friendships, f.user1_id < f.user2_id

/-- The `unique_friendship` constraint: no two rows carry the same
ordered column pair. -/
def FriendshipUnique (db : DB) : Prop :=
  ∀ f ∈ db.friendships, ∀ g ∈ db.friendships,
    f.user1_id = g.user1_id → f.user2_id = g.user2_id → f = g

/-- Primary-key uniqueness of the `friend_requests` table. -/
def ReqIdsNodup (db : DB) : Prop :=
  (db.requests.map (fun r => r.id)).Nodup

/-- The autoincrement discipline of the `friend_requests` primary key:
every stored id is below the next id to be allocated. -/
def ReqIdsFresh (db : DB) : Prop :=
  ∀ r ∈ db.requests, r.id < db.nextReqId

/-- No relationship state at all between the pair: no friendship row and
no request row in either direction. -/
def NoPrior (db : DB) (a b : Nat) : Prop :=
  pairRows db a b = [] ∧ db.requests.filter (betweenPair a b) = []

/-! ### Concrete states used by counterexamples and witnesses -/

/-- Both directions pending between users 1 and 2, the 1→2 row stored
first. -/
def dbBothPending : DB :=
  ⟨[⟨1, 1, 2, "pending"⟩, ⟨2, 2, 1, "pending"⟩], [], [], [], 3, 1⟩

/-- A pending request 1→2 whose recipient (user 2) owns an active form. -/
def dbPendingWithForm : DB :=
  ⟨[⟨1, 1, 2, "pending"⟩], [], [], [2], 2, 1⟩

/-- An `accepted` directed row 1→2 with no friendship: the state a
concurrent duplicate write leaves behind, on which the directed unique
constraint fires during `send_friend_request`'s insert. -/
def dbAcceptedRow : DB :=
  ⟨[⟨1, 1, 2, "accepted"⟩], [], [], [], 2, 1⟩

/-- A single canonical friendship row between users 1 and 2. -/
def dbOneFriendship : DB :=
  ⟨[], [⟨1, 1, 2⟩], [], [], 1, 2⟩

/-- A pending request 1→2 on an otherwise empty store. -/
def dbOnePending : DB :=
  ⟨[⟨1, 1, 2, "pending"⟩], [], [], [], 2, 1⟩

/-- Friendship 1-2, pending request 1→3, user 4 unrelated (the batch
scenario). -/
def dbBatch : DB :=
  ⟨[⟨1, 1, 3, "pending"⟩], [⟨1, 1, 2⟩], [], [], 2, 2⟩

/-- The empty store with both users owning forms. -/
def dbEmpty : DB := ⟨[], [], [], [1, 2], 1, 1⟩

/-! ### Helper lemmas -/

theorem are_friends_symm (db : DB) (a b : Nat) :
    are_friends db a b = are_friends db b a := by
  by_cases h : a = b
  · subst h; rfl
  · unfold are_friends
    rw [min_comm, max_comm]
    simp [h, Ne.symm h]

theorem are_friends_congr (db db' : DB) (h : db.friendships = db'.friendships)
    (a b : Nat) : are_friends db a b = are_friends db' a b := by
  unfold are_friends; rw [h]

/-! ### C1 -/

/-- C1: `create_friendship` always yields a canonically ordered pair
(`user1_id < user2_id`), inserting preserves the ordering invariant of
the whole table, and inserting a friendship for a pair that already has
a row — in either argument order — fails with the uniqueness-constraint
`conflict` error instead of adding a second row. -/
theorem c1_friendship_canonical_unique (db : DB) (a b : Nat)
    (hinv : FriendshipOrdered db) :
    (∀ p, create_friendship a b = .ok p → p.1 < p.2) ∧
    (∀ db', insertFriendship db a b = .ok db' → FriendshipOrdered db') ∧
    ((∃ f ∈ db.friendships,
        (f.user1_id = a ∧ f.user2_id = b) ∨ (f.user1_id = b ∧ f.user2_id = a)) →
      insertFriendship db a b = .error .conflict ∧
      insertFriendship db b a = .error .conflict) := by
  refine ⟨?_, ?_, ?_⟩
  · intro p hp
    unfold create_friendship at hp
    by_cases h : a = b
    · simp [h] at hp
    · simp only [beq_iff_eq, h, if_false, Except.ok.injEq] at hp
      rw [← hp]
      exact min_lt_max.mpr h
  · intro db' hdb'
    unfold insertFriendship create_friendship at hdb'
    by_cases h : a = b
    · simp [h] at hdb'
    · simp only [beq_iff_eq, h, if_false] at hdb'
      split at hdb'
      · exact absurd hdb' (by simp)
      · split at hdb'
        · rename_i hlt
          injection hdb' with hdb'
          intro f hf
          rw [← hdb'] at hf
          rcases List.mem_append.mp hf with hf' | hf'
          · exact hinv f hf'
          · simp only [List.mem_singleton] at hf'
            rw [hf']
            exact hlt
        · exact absurd hdb' (by simp)
  · rintro ⟨f, hf, hcase⟩
    have hlt := hinv f hf
    have hne : a ≠ b := by
      rcases hcase with ⟨h1, h2⟩ | ⟨h1, h2⟩ <;> omega
    have hmm : f.user1_id = min a b ∧ f.user2_id = max a b := by
      rcases hcase with ⟨h1, h2⟩ | ⟨h1, h2⟩ <;> constructor <;> omega
    have hany : db.friendships.any
        (fun g => g.user1_id == min a b && g.user2_id == max a b) = true :=
      List.any_eq_true.mpr ⟨f, hf, by simp [hmm.1, hmm.2]⟩
    constructor
    · unfold insertFriendship create_friendship
      simp [hne, hany]
    · unfold insertFriendship create_friendship
      rw [min_comm b a, max_comm b a]
      simp [Ne.symm hne, hany]

/-- Witness for C1: on a store holding the single canonical row (1,2),
inserting the pair in either order is rejected with `conflict`. -/
theorem c1_witness :
    insertFriendship dbOneFriendship 1 2 = .error .conflict ∧
    insertFriendship dbOneFriendship 2 1 = .error .conflict :=
  (c1_friendship_canonical_unique dbOneFriendship 1 2
      (by unfold FriendshipOrdered dbOneFriendship; decide)).2.2
    ⟨⟨1, 1, 2⟩, by decide, by decide⟩

/-! ### C2 -/

/-- C2 counterexample: in `dbBothPending` users 1 and 2 are not friends
and a pending request 2→1 (id 2) exists, yet `send_friend_request 1 2`
fails with the `DuplicateRequest` body (`alreadySent`), not with
`IncomingRequestExists 2` as the claim requires: the pending lookup
returns the first matching row in storage order, which is the 1→2 one. -/
theorem c2_counterexample :
    (∃ r ∈ dbBothPending.requests,
       r.from_user_id = 2 ∧ r.to_user_id = 1 ∧ r.status = "pending") ∧
    are_friends dbBothPending 1 2 = false ∧
    (send_friend_request dbBothPending 1 2 false).1 = .alreadySent ∧
    SendResp.alreadySent ≠ SendResp.incomingExists 2 := by decide

/-- C2 amended: for sender S and recipient R (R nonzero, R ≠ S), the
checks run in this order and create no request row on failure: if a
friendship for the pair exists the call fails with `AlreadyFriends`;
otherwise the first pending request between the pair in storage order
decides the outcome — if it runs R→S the call fails with
`IncomingRequestExists` carrying that row's id, and if it runs S→R it
fails with `DuplicateRequest`.  (The claim's unconditional priority of
the incoming direction holds only when at most one pending row exists
between the pair.) -/
theorem c2_send_checks_order (db : DB) (S R : Nat) (nf : Bool)
    (hR0 : R ≠ 0) (hRS : R ≠ S) :
    (are_friends db S R = true →
      send_friend_request db S R nf = (.alreadyFriends, db)) ∧
    (are_friends db S R = false →
      ∀ r, find_pending_between db S R = some r →
        send_friend_request db S R nf =
          ((if r.from_user_id = R then .incomingExists r.id else .alreadySent), db)) := by
  constructor
  · intro hfr
    unfold send_friend_request
    simp [hR0, hRS, hfr]
  · intro hfr r hr
    unfold send_friend_request
    by_cases hc : r.from_user_id = R
    · simp [hR0, hRS, hfr, hr, hc]
    · simp [hR0, hRS, hfr, hr, hc]

/-- Witness for C2: on a store where 1 and 2 are already friends,
sending 1→2 fails with `AlreadyFriends` and changes nothing. -/
theorem c2_witness :
    send_friend_request dbOneFriendship 1 2 false = (.alreadyFriends, dbOneFriendship) :=
  (c2_send_checks_order dbOneFriendship 1 2 false (by decide) (by decide)).1 (by decide)

/-! ### C3 -/

/-- C3 counterexample: in `dbPendingWithForm` user 2 (who owns an active
form) declines the pending request id 1 while the notification write
fails; the handler's generic `except` block rolls the transaction back,
so the call returns the internal error body and the request is still
`pending` — the declined status does not persist, contradicting the
claim for the decline operation. -/
theorem c3_counterexample :
    decline_friend_request dbPendingWithForm 2 1 true = (.internalError, dbPendingWithForm) ∧
    (∀ r ∈ ((decline_friend_request dbPendingWithForm 2 1 true).2).requests,
       r.status = "pending") := by decide

/-- C3 amended: for send and accept a notification failure is swallowed
and never rolls back the relationship-store mutation (the response and
the request/friendship tables are identical whether or not the
notification write fails); for decline, however, when the recipient owns
an active form a notification failure aborts the whole transaction and
the store is returned unchanged — the declined status does not persist. -/
theorem c3_notification_isolation (db : DB) (u t rid : Nat) :
    ((send_friend_request db u t true).1 = (send_friend_request db u t false).1 ∧
     ((send_friend_request db u t true).2).requests =
       ((send_friend_request db u t false).2).requests ∧
     ((send_friend_request db u t true).2).friendships =
       ((send_friend_request db u t false).2).friendships) ∧
    ((accept_friend_request db u rid true).1 = (accept_friend_request db u rid false).1 ∧
     ((accept_friend_request db u rid true).2).requests =
       ((accept_friend_request db u rid false).2).requests ∧
     ((accept_friend_request db u rid true).2).friendships =
       ((accept_friend_request db u rid false).2).friendships) ∧
    (db.forms.contains u = true →
      (decline_friend_request db u rid true).2 = db) := by
  refine ⟨?_, ?_, ?_⟩
  · unfold send_friend_request
    by_cases h0 : (t == 0) = true
    · simp [h0]
    · simp only [Bool.not_eq_true] at h0
      by_cases h1 : (t == u) = true
      · simp [h0, h1]
      · simp only [Bool.not_eq_true] at h1
        by_cases h2 : are_friends db u t
        · simp [h0, h1, h2]
        · simp only [Bool.not_eq_true] at h2
          cases hfp : find_pending_between db u t with
          | some r => simp [h0, h1, h2, hfp]
          | none =>
            cases hins : insertRequest (purgeDeclined db u t) u t "pending" with
            | error e => simp [h0, h1, h2, hfp, hins]
            | ok db2 =>
              by_cases hf : u ∈ db.forms
              · simp [h0, h1, h2, hfp, hins, hf, addNotif]
              · simp [h0, h1, h2, hfp, hins, hf]
  · unfold accept_friend_request
    cases hfind : db.requests.find? (acceptPred rid u) with
    | none => simp [hfind]
    | some fr =>
      by_cases h2 : are_friends db u fr.from_user_id
      · simp [hfind, h2]
      · simp only [Bool.not_eq_true] at h2
        cases hex : db.friendships.find? (fun f =>
            (f.user1_id == min u fr.from_user_id &&
             f.user2_id == max u fr.from_user_id) ||
            (f.user1_id == max u fr.from_user_id &&
             f.user2_id == min u fr.from_user_id)) with
        | some g => simp [hfind, h2, hex]
        | none =>
          cases hins : insertFriendship db u fr.from_user_id with
          | error e => simp [hfind, h2, hex, hins]
          | ok db2 =>
            by_cases hp : fr.status = "pending"
            · by_cases hf : u ∈ db.forms
              · simp [hfind, h2, hex, hins, hp, hf, addNotif, setReqStatus]
              · simp [hfind, h2, hex, hins, hp, hf]
            · by_cases hf : u ∈ db.forms
              · simp [hfind, h2, hex, hins, hp, hf, addNotif]
              · simp [hfind, h2, hex, hins, hp, hf]
  · intro hform
    have hform' : u ∈ db.forms := by simpa using hform
    unfold decline_friend_request
    cases hfind : db.requests.find? (fun r =>
        r.id == rid && r.to_user_id == u && r.status == "pending") with
    | none => simp [hfind]
    | some fr => simp [hfind, hform']

/-- Witness for C3: concrete decline with a failing notification leaves
the store untouched. -/
theorem c3_witness :
    (decline_friend_request dbPendingWithForm 2 1 true).2 = dbPendingWithForm :=
  (c3_notification_isolation dbPendingWithForm 2 1 1).2.2 (by decide)

/-! ### C4 -/

/-- C4 counterexample: on `dbAcceptedRow` (an `accepted` directed row
1→2 and no friendship — the residue a concurrent duplicate leaves
behind) `send_friend_request 1 2` passes every pre-check, hits the
directed unique constraint at the insert, and returns the raw internal
error body — not an "already exists/already friends" outcome as the
claim requires. -/
theorem c4_counterexample :
    send_friend_request dbAcceptedRow 1 2 false = (.internalError, dbAcceptedRow) ∧
    SendResp.internalError ≠ SendResp.alreadyFriends ∧
    SendResp.internalError ≠ SendResp.alreadySent ∧
    SendResp.internalError ≠ SendResp.incomingExists 1 := by decide

/-- C4 amended: when the insert inside `send_friend_request` fails with
the uniqueness-constraint violation, the generic handler catches it,
rolls the transaction back (the state is returned unchanged) and answers
with the generic internal-error outcome; the violation is not translated
into a user-facing "already exists/already friends" body — those come
only from the pre-checks that run before the write. -/
theorem c4_conflict_internal_error (db : DB) (u t : Nat) (nf : Bool)
    (h0 : t ≠ 0) (h1 : t ≠ u)
    (h2 : are_friends db u t = false)
    (h3 : find_pending_between db u t = none)
    (h4 : ∃ r ∈ db.requests, r.from_user_id = u ∧ r.to_user_id = t ∧
            r.status ≠ "declined" ∧ r.status ≠ "rejected") :
    send_friend_request db u t nf = (.internalError, db) := by
  obtain ⟨r, hr, hfrom, hto, hd, hrj⟩ := h4
  have hmem : r ∈ (purgeDeclined db u t).requests := by
    unfold purgeDeclined
    simp [List.mem_filter, hr, hfrom, hto, hd, hrj]
  have hany : (purgeDeclined db u t).requests.any
      (fun x => x.from_user_id == u && x.to_user_id == t) = true :=
    List.any_eq_true.mpr ⟨r, hmem, by simp [hfrom, hto]⟩
  unfold send_friend_request insertRequest
  simp [h0, h1, Ne.symm h1, h2, h3, hany]

/-- Witness for C4 at the concrete conflicting store. -/
theorem c4_witness :
    send_friend_request dbAcceptedRow 1 2 true = (.internalError, dbAcceptedRow) :=
  c4_conflict_internal_error dbAcceptedRow 1 2 true (by decide) (by decide)
    (by decide) (by decide) ⟨⟨1, 1, 2, "accepted"⟩, by decide, by decide⟩

/-! ### C9 -/

/-- A fold whose every step keeps a key absent preserves its absence. -/
theorem dmem_foldl_false {α : Type}
    (step : List (Nat × BStatus) → α → List (Nat × BStatus))
    (uid : Nat) (l : List α) (m : List (Nat × BStatus))
    (hstep : ∀ m' x, x ∈ l → dmem m' uid = false → dmem (step m' x) uid = false)
    (hm : dmem m uid = false) : dmem (l.foldl step m) uid = false := by
  induction l generalizing m with
  | nil => simpa using hm
  | cons a l ih =>
    rw [List.foldl_cons]
    exact ih (step m a) (fun m' x hx => hstep m' x (List.mem_cons_of_mem a hx))
      (hstep m a (List.mem_cons_self a l) hm)

/-- The defaulting loop never overwrites a key that is already present:
its verdict survives to the end. -/
theorem dget_preserved (uid : Nat) (v : BStatus) (l : List Nat)
    (m : List (Nat × BStatus))
    (hv : dget m uid = some v) (hmem : dmem m uid = true) :
    dget (l.foldl (fun m' k => if dmem m' k then m' else dput m' k .noneB) m) uid =
      some v := by
  induction l generalizing m with
  | nil => simpa using hv
  | cons a l ih =>
    rw [List.foldl_cons]
    by_cases ha : dmem m a = true
    · rw [if_pos ha]
      exact ih m hv hmem
    · rw [if_neg ha]
      have hne : a ≠ uid := by
        intro he
        rw [he] at ha
        exact ha hmem
      have hv' : dget (dput m a .noneB) uid = some v := by
        unfold dget dput
        rw [List.find?_cons_of_neg _ (by simp [hne])]
        exact hv
      have hmem' : dmem (dput m a .noneB) uid = true := by
        simp only [dmem, dput] at hmem ⊢
        simp [hmem]
      exact ih _ hv' hmem'

/-- The defaulting loop maps every listed key that is still absent to
the `none` verdict. -/
theorem dget_final_none (uid : Nat) (l : List Nat) (m : List (Nat × BStatus))
    (hmem : uid ∈ l) (hno : dmem m uid = false) :
    dget (l.foldl (fun m' k => if dmem m' k then m' else dput m' k .noneB) m) uid =
      some .noneB := by
  induction l generalizing m with
  | nil => simp at hmem
  | cons a l ih =>
    rw [List.foldl_cons]
    by_cases he : a = uid
    · subst he
      rw [if_neg (by simp [hno])]
      apply dget_preserved
      · unfold dget dput
        rw [List.find?_cons_of_pos _ (by simp)]
        rfl
      · simp only [dmem, dput]
        simp
    · have huidl : uid ∈ l := by
        rcases List.mem_cons.mp hmem with h | h
        · exact absurd h.symm he
        · exact h
      by_cases ha : dmem m a = true
      · rw [if_pos ha]
        exact ih m huidl hno
      · rw [if_neg ha]
        have hno' : dmem (dput m a .noneB) uid = false := by
          simp only [dmem, dput] at hno ⊢
          simp [hno, he]
        exact ih _ huidl hno'

/-- C9: the batch status check defaults every candidate with no matching
friendship and no pending request in either direction to the `none`
verdict, and on the concrete scenario (A-B friends, pending A→C, D
unrelated) it answers friends / pending_sent / none respectively. -/
theorem c9_batch_status (db : DB) (u uid : Nat) (ids : List Nat)
    (m : List (Nat × BStatus))
    (hok : batch_friend_status db u (some ids) = .ok m)
    (hmem : uid ∈ ids)
    (hnof : ∀ f ∈ db.friendships,
      ¬((f.user1_id = u ∧ f.user2_id = uid) ∨ (f.user2_id = u ∧ f.user1_id = uid)))
    (hnor : ∀ r ∈ db.requests, r.status = "pending" →
      ¬((r.from_user_id = u ∧ r.to_user_id = uid) ∨
        (r.from_user_id = uid ∧ r.to_user_id = u))) :
    dget m uid = some .noneB ∧
    (∃ mc, batch_friend_status dbBatch 1 (some [2, 3, 4]) = .ok mc ∧
      dget mc 2 = some .friends ∧ dget mc 3 = some (.pendingSent 1) ∧
      dget mc 4 = some .noneB) := by
  constructor
  · unfold batch_friend_status at hok
    simp only [Option.getD_some] at hok
    split at hok
    · simp at hok
    · injection hok with hok
      rw [← hok]
      apply dget_final_none uid ids _ hmem
      apply dmem_foldl_false
      · intro m' r hr hm'
        split
        · exact hm'
        · simp only [dmem, dput] at hm' ⊢
          rw [List.any_cons]
          have hrm := List.mem_filter.mp hr
          have hne : r.from_user_id ≠ uid := by
            intro he
            simp only [Bool.and_eq_true, beq_iff_eq] at hrm
            exact hnor r hrm.1 hrm.2.2 (Or.inr ⟨he, hrm.2.1.2⟩)
          simp [hm', hne]
      apply dmem_foldl_false
      · intro m' r hr hm'
        split
        · exact hm'
        · simp only [dmem, dput] at hm' ⊢
          rw [List.any_cons]
          have hrm := List.mem_filter.mp hr
          have hne : r.to_user_id ≠ uid := by
            intro he
            simp only [Bool.and_eq_true, beq_iff_eq] at hrm
            exact hnor r hrm.1 hrm.2.2 (Or.inl ⟨hrm.2.1.1, he⟩)
          simp [hm', hne]
      apply dmem_foldl_false
      · intro m' f hf hm'
        simp only [dmem, dput] at hm' ⊢
        rw [List.any_cons]
        have hfm := List.mem_filter.mp hf
        have hne : friendIdOf u f ≠ uid := by
          intro he
          unfold friendIdOf at he
          simp only [Bool.or_eq_true, Bool.and_eq_true, beq_iff_eq] at hfm
          by_cases h1 : f.user1_id = u
          · rw [if_pos (by simp [h1])] at he
            exact hnof f hfm.1 (Or.inl ⟨h1, he⟩)
          · rw [if_neg (by simp [h1])] at he
            rcases hfm.2 with ⟨h2, _⟩ | ⟨h2, _⟩
            · exact absurd h2 h1
            · exact hnof f hfm.1 (Or.inr ⟨h2, he⟩)
        simp [hm', hne]
      · rfl
  · exact ⟨_, rfl, by decide, by decide, by decide⟩

/-- Witness for C9 on the concrete scenario, defaulting candidate 4. -/
theorem c9_witness :
    ∃ m, batch_friend_status dbBatch 1 (some [2, 3, 4]) = .ok m ∧
      dget m 4 = some .noneB := by
  obtain ⟨h1, _⟩ := c9_batch_status dbBatch 1 4 [2, 3, 4] _ rfl (by decide)
    (by unfold dbBatch; decide) (by unfold dbBatch; decide)
  exact ⟨_, rfl, h1⟩

/-! ### C10 -/

/-- C10: the batch status check rejects an absent or empty `user_ids`
list and one of more than 100 ids with the invalid-input outcome,
independently of the store contents (no store state influences the
answer); a list of 1 to 100 ids is accepted. -/
theorem c10_batch_validation (db db' : DB) (u : Nat) (ids? : Option (List Nat)) :
    (((ids?.getD []).isEmpty = true ∨ (ids?.getD []).length > 100) →
       batch_friend_status db u ids? = .invalid ∧
       batch_friend_status db u ids? = batch_friend_status db' u ids?) ∧
    (1 ≤ (ids?.getD []).length → (ids?.getD []).length ≤ 100 →
       batch_friend_status db u ids? ≠ .invalid) := by
  constructor
  · intro h
    have hcond : ((ids?.getD []).isEmpty
        || decide ((ids?.getD []).length > 100)) = true := by
      rcases h with h | h <;> simp [h]
    constructor
    · unfold batch_friend_status
      simp only [hcond, if_true]
    · unfold batch_friend_status
      simp only [hcond, if_true]
  · intro hlo hhi
    have hne : ¬ (ids?.getD []).isEmpty = true := by
      rw [List.isEmpty_iff]
      intro hnil
      rw [hnil] at hlo
      simp at hlo
    have hgt : ¬ (ids?.getD []).length > 100 := by omega
    unfold batch_friend_status
    simp [hne, hgt]

/-! ### C5 -/

/-- The unordered-pair match in raw column order equals the match in
canonical `(min, max)` order. -/
theorem pair_pred_minmax (a b u1 u2 : Nat) :
    ((u1 == a && u2 == b) || (u1 == b && u2 == a)) =
    ((u1 == min a b && u2 == max a b) || (u1 == max a b && u2 == min a b)) := by
  rcases le_total a b with hle | hle
  · rw [min_eq_left hle, max_eq_right hle]
  · rw [min_eq_right hle, max_eq_left hle]
    exact Bool.or_comm _ _

/-- After the accept-path status update keyed on the found row's id, the
accept lookup finds the same row with status `accepted` (ids are unique,
so no other row is touched). -/
theorem find?_map_accept (l : List FriendRequestRow) (rid u : Nat)
    (fr : FriendRequestRow)
    (hnd : (l.map (fun r => r.id)).Nodup)
    (hf : l.find? (acceptPred rid u) = some fr) :
    (l.map (fun r => if r.id == fr.id then { r with status := "accepted" } else r)).find?
      (acceptPred rid u) = some { fr with status := "accepted" } := by
  induction l with
  | nil => simp at hf
  | cons a l ih =>
    rw [List.map_cons]
    cases hpa : acceptPred rid u a with
    | true =>
      rw [List.find?_cons_of_pos _ hpa] at hf
      injection hf with hf
      subst hf
      rw [if_pos (by simp)]
      apply List.find?_cons_of_pos
      unfold acceptPred at hpa ⊢
      simp only [Bool.and_eq_true, Bool.or_eq_true, beq_iff_eq] at hpa ⊢
      exact ⟨⟨hpa.1.1, hpa.1.2⟩, Or.inr trivial⟩
    | false =>
      rw [List.find?_cons_of_neg _ (by simp [hpa])] at hf
      have hmem : fr ∈ l := List.mem_of_find?_eq_some hf
      have hane : a.id ≠ fr.id := by
        intro he
        have : a.id ∈ l.map (fun r => r.id) := by
          rw [he]
          exact List.mem_map_of_mem _ hmem
        exact (List.nodup_cons.mp hnd).1 this
      rw [if_neg (by simp [hane])]
      rw [List.find?_cons_of_neg _ (by simp [hpa])]
      exact ih (List.nodup_cons.mp hnd).2 hf

/-- When the accept lookup finds a non-pending row whose pair is already
friends, `accept_friend_request` answers the `Already friends` success
body and leaves the state untouched. -/
theorem accept_already_friends (dbx : DB) (u rid : Nat) (nf : Bool)
    (fr' : FriendRequestRow)
    (hfind : dbx.requests.find? (acceptPred rid u) = some fr')
    (hfr : are_friends dbx u fr'.from_user_id = true)
    (hstat : (fr'.status == "pending") = false) :
    accept_friend_request dbx u rid nf = (.alreadyFriends, dbx) := by
  simp only [accept_friend_request, hfind, hfr, hstat]
  simp

/-- C5: when `accept_request` succeeds through its friendship-creating
path, the request is found again on a replay (now `accepted`), the
replay returns the `Already friends` success body without changing the
state at all, and exactly one friendship row exists for the pair — no
second row is ever created. -/
theorem c5_accept_idempotent (db : DB) (u rid : Nat) (nf1 nf2 : Bool) (db1 : DB)
    (hnodup : ReqIdsNodup db)
    (h : accept_friend_request db u rid nf1 = (.accepted, db1)) :
    ∃ fr, db.requests.find? (acceptPred rid u) = some fr ∧
      accept_friend_request db1 u rid nf2 = (.alreadyFriends, db1) ∧
      (pairRows db1 u fr.from_user_id).length = 1 := by
  unfold accept_friend_request at h
  split at h
  · simp at h
  · rename_i fr hfind
    split at h
    · simp at h
    · rename_i hfr
      split at h
      · simp at h
      · rename_i hex
        split at h
        · simp at h
        · rename_i db2 hins
          unfold insertFriendship create_friendship at hins
          split at hins
          · simp at hins
          · rename_i lo hi hcr
            split at hins
            · simp at hins
            · rename_i hnofr
              split at hins
              · rename_i hlohi
                injection hins with hins
                by_cases hc : (u == fr.from_user_id) = true
                · rw [if_pos hc] at hcr
                  exact absurd hcr (by simp)
                rw [if_neg hc] at hcr
                injection hcr with hcr
                injection hcr with hlo hhi
                subst hlo
                subst hhi
                refine ⟨fr, hfind, ?_⟩
                have hkey : db1.friendships = db2.friendships ∧
                    db1.requests = (if (fr.status == "pending") = true then
                      (setReqStatus db2 fr.id "accepted").requests
                    else db2.requests) := by
                  simp only [] at h
                  split at h
                  · split at h
                    · rename_i hp
                      injection h with _ h
                      rw [← h, if_pos hp]
                      exact ⟨rfl, rfl⟩
                    · rename_i hp
                      injection h with _ h
                      rw [← h, if_neg hp]
                      exact ⟨rfl, rfl⟩
                  · split at h
                    · rename_i hp
                      injection h with _ h
                      rw [← h, if_pos hp]
                      exact ⟨rfl, rfl⟩
                    · rename_i hp
                      injection h with _ h
                      rw [← h, if_neg hp]
                      exact ⟨rfl, rfl⟩
                have hfs2 : db2.friendships = db.friendships ++
                    [⟨db.nextFrId, min u fr.from_user_id, max u fr.from_user_id⟩] := by
                  rw [← hins]
                have hrq2 : db2.requests = db.requests := by
                  rw [← hins]
                have hfr1 : are_friends db1 u fr.from_user_id = true := by
                  unfold are_friends
                  rw [if_neg hc, hkey.1, hfs2, List.any_append]
                  simp
                have hold : db.friendships.filter (fun f =>
                    (f.user1_id == u && f.user2_id == fr.from_user_id) ||
                    (f.user1_id == fr.from_user_id && f.user2_id == u)) = [] := by
                  rw [List.filter_eq_nil]
                  intro f hfmem
                  have hnp := List.find?_eq_none.mp hex f hfmem
                  rw [pair_pred_minmax]
                  simpa using hnp
                have hpair : pairRows db1 u fr.from_user_id =
                    [⟨db.nextFrId, min u fr.from_user_id, max u fr.from_user_id⟩] := by
                  unfold pairRows
                  rw [hkey.1, hfs2, List.filter_append, hold]
                  rcases le_total u fr.from_user_id with hle | hle
                  · rw [min_eq_left hle, max_eq_right hle]
                    simp
                  · rw [min_eq_right hle, max_eq_left hle]
                    simp
                by_cases hp : (fr.status == "pending") = true
                · have hfind1 : db1.requests.find? (acceptPred rid u) =
                      some { fr with status := "accepted" } := by
                    rw [hkey.2, if_pos hp]
                    show (db2.requests.map _).find? _ = _
                    rw [hrq2]
                    exact find?_map_accept db.requests rid u fr hnodup hfind
                  have happ := accept_already_friends db1 u rid nf2 _ hfind1 hfr1 rfl
                  rw [hpair]
                  exact ⟨happ, rfl⟩
                · have hfind1 : db1.requests.find? (acceptPred rid u) = some fr := by
                    rw [hkey.2, if_neg hp, hrq2]
                    exact hfind
                  have happ := accept_already_friends db1 u rid nf2 fr hfind1 hfr1
                    (by simpa using hp)
                  rw [hpair]
                  exact ⟨happ, rfl⟩
              · simp at hins

/-- Witness for C5: user 2 accepts the pending request id 1 from user 1
on `dbOnePending`, then replays the accept. -/
theorem c5_witness :
    ∃ fr, dbOnePending.requests.find? (acceptPred 1 2) = some fr ∧
      accept_friend_request (accept_friend_request dbOnePending 2 1 false).2 2 1 false =
        (.alreadyFriends, (accept_friend_request dbOnePending 2 1 false).2) ∧
      (pairRows (accept_friend_request dbOnePending 2 1 false).2 2
        fr.from_user_id).length = 1 :=
  c5_accept_idempotent dbOnePending 2 1 false false
    (accept_friend_request dbOnePending 2 1 false).2
    (by unfold ReqIdsNodup dbOnePending; decide) (by decide)

/-! ### C6 -/

/-- C6: `remove_friend` is symmetric — swapping the two arguments gives
the identical response and end state; with no friendship for the pair it
fails with `NotFound` and changes nothing; and on a store satisfying the
table constraints, removing an existing friendship succeeds, leaves no
friendship row for the pair, and leaves no accepted-status request row
between the pair in either direction. -/
theorem c6_remove_friend_symmetric (db : DB) (a b : Nat) :
    (remove_friend db a b = remove_friend db b a) ∧
    (get_friendship db a b = none → remove_friend db a b = (.notFound, db)) ∧
    (FriendshipOrdered db → FriendshipUnique db →
      ∀ f, get_friendship db a b = some f →
        (remove_friend db a b).1 = .ok ∧
        pairRows ((remove_friend db a b).2) a b = [] ∧
        (((remove_friend db a b).2).requests.all
          (fun r => !(betweenPair a b r && r.status == "accepted"))) = true) := by
  have hget : get_friendship db a b = get_friendship db b a := by
    unfold get_friendship; rw [min_comm, max_comm]
  have hab : ∀ r, acceptedBetween a b r = acceptedBetween b a r := by
    intro r; unfold acceptedBetween; rw [Bool.or_comm]
  refine ⟨?_, ?_, ?_⟩
  · unfold remove_friend
    rw [← hget]
    cases hf : get_friendship db a b with
    | none => rfl
    | some f => simp [hab]
  · intro h
    unfold remove_friend
    rw [h]
  · intro hord huniq f hf
    have hfm : f ∈ db.friendships := List.mem_of_find?_eq_some hf
    have hfp := List.find?_some hf
    simp only [Bool.and_eq_true, beq_iff_eq] at hfp
    unfold remove_friend
    rw [hf]
    refine ⟨rfl, ?_, ?_⟩
    · unfold pairRows
      simp only [List.filter_filter]
      rw [List.filter_eq_nil]
      intro g hg
      simp only [Bool.and_eq_true, Bool.or_eq_true, Bool.not_eq_true',
        beq_eq_false_iff_ne, ne_eq, beq_iff_eq]
      rintro ⟨hpair, hid⟩
      have hgord := hord g hg
      have hford := hord f hfm
      have h1 : g.user1_id = f.user1_id ∧ g.user2_id = f.user2_id := by
        rcases hpair with ⟨e1, e2⟩ | ⟨e1, e2⟩ <;>
          exact ⟨by omega, by omega⟩
      exact hid (congrArg FriendshipRow.id (huniq g hg f hfm h1.1 h1.2))
    · rw [List.all_eq_true]
      intro r hr
      have hmem := (List.mem_filter.mp hr).2
      simpa [acceptedBetween, betweenPair] using hmem

/-- Witness for C6 on a concrete store holding the friendship (1,2). -/
theorem c6_witness :
    remove_friend dbOneFriendship 1 2 = remove_friend dbOneFriendship 2 1 ∧
    (remove_friend dbOneFriendship 1 2).1 = .ok ∧
    pairRows ((remove_friend dbOneFriendship 1 2).2) 1 2 = [] := by
  have h := c6_remove_friend_symmetric dbOneFriendship 1 2
  have h3 := h.2.2 (by unfold FriendshipOrdered dbOneFriendship; decide)
    (by unfold FriendshipUnique dbOneFriendship; decide) ⟨1, 1, 2⟩ (by decide)
  exact ⟨h.1, h3.1, h3.2.1⟩

/-- A canonical `(min, max)` match implies a match of the unordered
pair in one of the two column orders. -/
theorem canonical_mem_pair (a b u1 u2 : Nat)
    (h : (u1 == min a b && u2 == max a b) = true) :
    ((u1 == a && u2 == b) || (u1 == b && u2 == a)) = true := by
  rcases le_total a b with hle | hle
  · rw [min_eq_left hle, max_eq_right hle] at h
    simp only [Bool.or_eq_true]
    exact Or.inl h
  · rw [min_eq_right hle, max_eq_left hle] at h
    simp only [Bool.or_eq_true]
    exact Or.inr h

/-- With no friendship row for the pair, `are_friends` is false. -/
theorem no_pair_are_friends_false (db : DB) (a b : Nat)
    (h : pairRows db a b = []) : are_friends db a b = false := by
  unfold are_friends
  split
  · rfl
  · rw [List.any_eq_false]
    intro f hf hcontra
    exact (List.filter_eq_nil.mp h f hf) (canonical_mem_pair a b _ _ hcontra)

/-- Forward characterization of a successful `send_friend_request`:
when every pre-check passes and the directed unique constraint does not
fire, the call returns `ok` and the state is the purged request table
extended with the fresh pending row, plus the best-effort notification. -/
theorem send_ok_char (db : DB) (u t : Nat) (nf : Bool)
    (h0 : (t == 0) = false) (h1 : (t == u) = false)
    (h2 : are_friends db u t = false)
    (h3 : find_pending_between db u t = none)
    (h4 : ((purgeDeclined db u t).requests.any
            (fun r => r.from_user_id == u && r.to_user_id == t)) = false) :
    send_friend_request db u t nf =
      (.ok, if db.forms.contains u && !nf then
        addNotif { purgeDeclined db u t with
            requests := (purgeDeclined db u t).requests ++
              [⟨db.nextReqId, u, t, "pending"⟩],
            nextReqId := db.nextReqId + 1 } t u "friend_request" (some db.nextReqId)
      else { purgeDeclined db u t with
            requests := (purgeDeclined db u t).requests ++
              [⟨db.nextReqId, u, t, "pending"⟩],
            nextReqId := db.nextReqId + 1 }) := by
  have h1' : (u == t) = false := by
    have ht : t ≠ u := by simpa using h1
    simp [Ne.symm ht]
  unfold send_friend_request insertRequest
  simp only [h0, h1, h1', h2, h3, h4, Bool.false_eq_true, if_false]
  rfl

/-! ### C7 -/

/-- Inversion of a successful `send_friend_request`: the pre-checks all
passed and the end state is the purged request table extended with the
fresh pending row; friendships are untouched. -/
theorem send_ok_inv (db : DB) (u t : Nat) (nf : Bool) (db' : DB)
    (h : send_friend_request db u t nf = (.ok, db')) :
    (t == 0) = false ∧ (t == u) = false ∧
    are_friends db u t = false ∧
    find_pending_between db u t = none ∧
    db'.requests = (purgeDeclined db u t).requests ++
      [⟨db.nextReqId, u, t, "pending"⟩] ∧
    db'.friendships = db.friendships ∧
    db'.nextReqId = db.nextReqId + 1 := by
  unfold send_friend_request at h
  split at h
  · simp at h
  · rename_i h0
    split at h
    · simp at h
    · rename_i h1
      split at h
      · simp at h
      · rename_i h2
        split at h
        · split at h <;> simp at h
        · rename_i hfp
          split at h
          · simp only [] at h
            split at h
            · simp at h
            · rename_i db2 hins
              unfold insertRequest at hins
              split at hins
              · simp at hins
              · split at hins
                · simp at hins
                · injection hins with hins
                  injection h with _ h
                  refine ⟨by simpa using h0, by simpa using h1,
                    by simpa using h2, hfp, ?_, ?_, ?_⟩ <;>
                    rw [← h] <;> simp [addNotif, purgeDeclined, ← hins]
          · simp only [] at h
            split at h
            · simp at h
            · rename_i db2 hins
              unfold insertRequest at hins
              split at hins
              · simp at hins
              · split at hins
                · simp at hins
                · injection hins with hins
                  injection h with _ h
                  refine ⟨by simpa using h0, by simpa using h1,
                    by simpa using h2, hfp, ?_, ?_, ?_⟩ <;>
                    rw [← h] <;> simp [purgeDeclined, ← hins]

/-- C7: immediately after `send_request(A,B)` succeeds, the single-pair
status check reports `pending_received` to B about A, carrying the id of
the created request, and `pending_sent` to A about B with the same id;
moreover the status check gives friendship existence priority over the
pending-request lookups. -/
theorem c7_status_after_send (db : DB) (A B : Nat) (nf : Bool) (db' : DB)
    (h : send_friend_request db A B nf = (.ok, db')) :
    get_friend_status db' B A = .pendingReceived db.nextReqId ∧
    get_friend_status db' A B = .pendingSent db.nextReqId ∧
    (∀ v o, are_friends db' v o = true → get_friend_status db' v o = .friends) := by
  obtain ⟨h0, h1, h2, h3, hreq, hfs, hnx⟩ := send_ok_inv db A B nf db' h
  have hBA : B ≠ A := by simpa using h1
  have hAB : A ≠ B := Ne.symm hBA
  have hnopend : ∀ r ∈ (purgeDeclined db A B).requests,
      ¬ (((r.from_user_id == A && r.to_user_id == B) ||
          (r.from_user_id == B && r.to_user_id == A)) &&
         r.status == "pending") = true := by
    intro r hr
    have hr' : r ∈ db.requests := (List.mem_filter.mp hr).1
    exact (List.find?_eq_none.mp h3) r hr'
  have hsentBA : db'.requests.find? (fun r =>
      r.from_user_id == B && r.to_user_id == A && r.status == "pending") = none := by
    rw [hreq, List.find?_append]
    have hl : (purgeDeclined db A B).requests.find? (fun r =>
        r.from_user_id == B && r.to_user_id == A && r.status == "pending") = none := by
      rw [List.find?_eq_none]
      intro r hr hcontra
      apply hnopend r hr
      simp only [Bool.and_eq_true, Bool.or_eq_true] at hcontra ⊢
      exact ⟨Or.inr hcontra.1, hcontra.2⟩
    rw [hl]
    simp [hBA]
  have hsentAB : db'.requests.find? (fun r =>
      r.from_user_id == A && r.to_user_id == B && r.status == "pending") =
      some ⟨db.nextReqId, A, B, "pending"⟩ := by
    rw [hreq, List.find?_append]
    have hl : (purgeDeclined db A B).requests.find? (fun r =>
        r.from_user_id == A && r.to_user_id == B && r.status == "pending") = none := by
      rw [List.find?_eq_none]
      intro r hr hcontra
      apply hnopend r hr
      simp only [Bool.and_eq_true, Bool.or_eq_true] at hcontra ⊢
      exact ⟨Or.inl hcontra.1, hcontra.2⟩
    rw [hl]
    simp
  have hfrBA : are_friends db' B A = false := by
    rw [are_friends_congr db' db hfs, are_friends_symm]
    exact h2
  have hfrAB : are_friends db' A B = false := by
    rw [are_friends_congr db' db hfs]
    exact h2
  refine ⟨?_, ?_, ?_⟩
  · unfold get_friend_status
    rw [hfrBA, hsentBA, hsentAB]
    simp
  · unfold get_friend_status
    rw [hfrAB, hsentAB]
    simp
  · intro v o hv
    unfold get_friend_status
    rw [hv]
    simp

/-- Witness for C7 on the empty store: 1 sends to 2, the created request
has id 1, and both directions report the expected pending status. -/
theorem c7_witness :
    get_friend_status (send_friend_request dbEmpty 1 2 false).2 2 1 =
      .pendingReceived 1 ∧
    get_friend_status (send_friend_request dbEmpty 1 2 false).2 1 2 =
      .pendingSent 1 := by
  have h := c7_status_after_send dbEmpty 1 2 false
    (send_friend_request dbEmpty 1 2 false).2 (by decide)
  exact ⟨h.1, h.2.1⟩

/-! ### C8 -/

/-- C8: for users A ≠ B with no prior relationship, the round trip
succeeds: `send_request(A,B)` creates the pending request with id
`db.nextReqId`, `decline_request(B, that id)` succeeds, and a second
`send_request(A,B)` succeeds again — the old declined row authored by A
toward B is purged (no row with its id survives) and a fresh pending
request A→B is created. -/
theorem c8_resend_after_decline (db : DB) (A B : Nat) (nf1 nf3 : Bool)
    (hAB : A ≠ B) (hB0 : B ≠ 0)
    (hfresh : ReqIdsFresh db) (hnp : NoPrior db A B) :
    ∃ db1 db2 db3,
      send_friend_request db A B nf1 = (.ok, db1) ∧
      decline_friend_request db1 B db.nextReqId false = (.ok, db2) ∧
      send_friend_request db2 A B nf3 = (.ok, db3) ∧
      (∀ r ∈ db3.requests, r.id ≠ db.nextReqId) ∧
      (⟨db.nextReqId + 1, A, B, "pending"⟩ : FriendRequestRow) ∈ db3.requests := by
  obtain ⟨hpr, hbt⟩ := hnp
  have hF1 : ∀ r ∈ db.requests, betweenPair A B r = false := by
    intro r hr
    have h := List.filter_eq_nil.mp hbt r hr
    simpa using h
  have hd1 : ∀ r ∈ db.requests,
      (r.from_user_id == A && r.to_user_id == B) = false := by
    intro r hr
    have h := hF1 r hr
    unfold betweenPair at h
    cases hx : (r.from_user_id == A && r.to_user_id == B)
    · rfl
    · rw [hx] at h; simp at h
  have hd2 : ∀ r ∈ db.requests,
      (r.from_user_id == B && r.to_user_id == A) = false := by
    intro r hr
    have h := hF1 r hr
    unfold betweenPair at h
    cases hx : (r.from_user_id == B && r.to_user_id == A)
    · rfl
    · rw [hx] at h; simp at h
  have hd1' : ∀ r ∈ db.requests, ¬r.from_user_id = A ∨ ¬r.to_user_id = B := by
    intro r hr
    have h := hd1 r hr
    by_cases hA : r.from_user_id = A
    · right
      intro hB
      rw [hA, hB] at h
      simp at h
    · exact Or.inl hA
  have c0 : (B == 0) = false := by simp [hB0]
  have c1 : (B == A) = false := by simp [Ne.symm hAB]
  have c2 : are_friends db A B = false := no_pair_are_friends_false db A B hpr
  have c3 : find_pending_between db A B = none := by
    unfold find_pending_between
    rw [List.find?_eq_none]
    intro r hr
    simp [hd1 r hr, hd2 r hr]
  have hfilt : db.requests.filter (fun r =>
      !(r.from_user_id == A && r.to_user_id == B &&
        (r.status == "declined" || r.status == "rejected"))) = db.requests := by
    rw [List.filter_eq_self]
    intro r hr
    simp [hd1 r hr]
  have hpurge1 : (purgeDeclined db A B).requests = db.requests := by
    show db.requests.filter _ = db.requests
    exact hfilt
  have h4a : ((purgeDeclined db A B).requests.any
      (fun r => r.from_user_id == A && r.to_user_id == B)) = false := by
    rw [hpurge1, List.any_eq_false]
    intro r hr
    simp [hd1 r hr]
  have hs1 := send_ok_char db A B nf1 c0 c1 c2 c3 h4a
  obtain ⟨db1, hs1', hq1, hf1, hforms1, hn1⟩ :
      ∃ db1, send_friend_request db A B nf1 = (.ok, db1) ∧
        db1.requests = db.requests ++ [⟨db.nextReqId, A, B, "pending"⟩] ∧
        db1.friendships = db.friendships ∧
        db1.forms = db.forms ∧
        db1.nextReqId = db.nextReqId + 1 := by
    refine ⟨_, hs1, ?_, ?_, ?_, ?_⟩ <;>
      · split <;>
          · simp [addNotif, purgeDeclined]
            try exact fun a ha => Or.inl (hd1' a ha)
  have hfind1 : db1.requests.find? (fun r =>
      r.id == db.nextReqId && r.to_user_id == B && r.status == "pending") =
      some ⟨db.nextReqId, A, B, "pending"⟩ := by
    rw [hq1, List.find?_append]
    have hl : db.requests.find? (fun r =>
        r.id == db.nextReqId && r.to_user_id == B && r.status == "pending") = none := by
      rw [List.find?_eq_none]
      intro r hr hcontra
      have hlt := hfresh r hr
      simp only [Bool.and_eq_true, beq_iff_eq] at hcontra
      omega
    rw [hl]
    simp
  have hdecl : decline_friend_request db1 B db.nextReqId false =
      (.ok, if db1.forms.contains B then
          addNotif (setReqStatus db1 db.nextReqId "declined") A B "friend_declined" none
        else setReqStatus db1 db.nextReqId "declined") := by
    simp only [decline_friend_request, hfind1]
    by_cases hf : B ∈ db1.forms
    · simp [hf]
    · simp [hf]
  have hmapold : List.map (fun r =>
      if r.id = db.nextReqId then
        FriendRequestRow.mk r.id r.from_user_id r.to_user_id "declined"
      else r) db.requests = db.requests := by
    have hpt : ∀ r ∈ db.requests, (if r.id = db.nextReqId then
        FriendRequestRow.mk r.id r.from_user_id r.to_user_id "declined"
      else r) = r := by
      intro r hr
      have := hfresh r hr
      rw [if_neg]
      omega
    rw [List.map_congr_left hpt]
    exact List.map_id _
  obtain ⟨db2, hs2, hq2, hf2, hforms2, hn2⟩ :
      ∃ db2, decline_friend_request db1 B db.nextReqId false = (.ok, db2) ∧
        db2.requests = db.requests ++ [⟨db.nextReqId, A, B, "declined"⟩] ∧
        db2.friendships = db.friendships ∧
        db2.forms = db.forms ∧
        db2.nextReqId = db.nextReqId + 1 := by
    refine ⟨_, hdecl, ?_, ?_, ?_, ?_⟩ <;>
      · split <;>
          simp [addNotif, setReqStatus, hq1, List.map_append, hmapold,
            hf1, hforms1, hn1]
  have c2' : are_friends db2 A B = false := by
    rw [are_friends_congr db2 db hf2]
    exact c2
  have c3' : find_pending_between db2 A B = none := by
    unfold find_pending_between
    rw [List.find?_eq_none]
    intro r hr
    rw [hq2] at hr
    rcases List.mem_append.mp hr with hr' | hr'
    · simp [hd1 r hr', hd2 r hr']
    · simp only [List.mem_singleton] at hr'
      rw [hr']
      simp
  have hfilt2 : (purgeDeclined db2 A B).requests = db.requests := by
    show db2.requests.filter _ = _
    rw [hq2, List.filter_append, hfilt]
    simp
  have h4b : ((purgeDeclined db2 A B).requests.any
      (fun r => r.from_user_id == A && r.to_user_id == B)) = false := by
    rw [hfilt2, List.any_eq_false]
    intro r hr
    simp [hd1 r hr]
  have hs3 := send_ok_char db2 A B nf3 c0 c1 c2' c3' h4b
  refine ⟨db1, db2, _, hs1', hs2, hs3, ?_, ?_⟩
  · intro r hr
    have hq3 : (if db2.forms.contains A && !nf3 then
        addNotif { purgeDeclined db2 A B with
            requests := (purgeDeclined db2 A B).requests ++
              [⟨db2.nextReqId, A, B, "pending"⟩],
            nextReqId := db2.nextReqId + 1 } B A "friend_request" (some db2.nextReqId)
      else { purgeDeclined db2 A B with
            requests := (purgeDeclined db2 A B).requests ++
              [⟨db2.nextReqId, A, B, "pending"⟩],
            nextReqId := db2.nextReqId + 1 }).requests =
        db.requests ++ [⟨db.nextReqId + 1, A, B, "pending"⟩] := by
      split <;> simp [addNotif, hfilt2, hn2]
    rw [hq3] at hr
    rcases List.mem_append.mp hr with hr' | hr'
    · have := hfresh r hr'
      omega
    · simp only [List.mem_singleton] at hr'
      rw [hr']
      simp
  · have hq3 : (if db2.forms.contains A && !nf3 then
        addNotif { purgeDeclined db2 A B with
            requests := (purgeDeclined db2 A B).requests ++
              [⟨db2.nextReqId, A, B, "pending"⟩],
            nextReqId := db2.nextReqId + 1 } B A "friend_request" (some db2.nextReqId)
      else { purgeDeclined db2 A B with
            requests := (purgeDeclined db2 A B).requests ++
              [⟨db2.nextReqId, A, B, "pending"⟩],
            nextReqId := db2.nextReqId + 1 }).requests =
        db.requests ++ [⟨db.nextReqId + 1, A, B, "pending"⟩] := by
      split <;> simp [addNotif, hfilt2, hn2]
    rw [hq3]
    exact List.mem_append_right _ (by simp)

/-- Witness for C8 on the empty store: 1 sends to 2 (request id 1),
2 declines it, 1 sends again. -/
theorem c8_witness :
    ∃ db1 db2 db3,
      send_friend_request dbEmpty 1 2 false = (.ok, db1) ∧
      decline_friend_request db1 2 1 false = (.ok, db2) ∧
      send_friend_request db2 1 2 false = (.ok, db3) ∧
      (∀ r ∈ db3.requests, r.id ≠ 1) ∧
      (⟨2, 1, 2, "pending"⟩ : FriendRequestRow) ∈ db3.requests :=
  c8_resend_after_decline dbEmpty 1 2 false false (by decide) (by decide)
    (by unfold ReqIdsFresh dbEmpty; decide)
    (by unfold NoPrior pairRows dbEmpty; decide)

/-- Witness for C10: the empty list is rejected on any store, a
one-element list is accepted. -/
theorem c10_witness :
    batch_friend_status dbEmpty 1 (some []) = .invalid ∧
    batch_friend_status dbEmpty 1 none = .invalid ∧
    batch_friend_status dbEmpty 1 (some [2]) ≠ .invalid :=
  ⟨((c10_batch_validation dbEmpty dbBatch 1 (some [])).1 (by decide)).1,
   ((c10_batch_validation dbEmpty dbBatch 1 none).1 (by decide)).1,
   (c10_batch_validation dbEmpty dbBatch 1 (some [2])).2 (by decide) (by decide)⟩

end Noor
